import Mathlib

/-!
# Verification of the `captcha` image engine (bounding-box variant)

The repository ships tests (`src/tests/test_image.py`) and an example
(`src/examples/example_bounding_boxes.py`) for `captcha.image.ImageCaptcha`,
whose implementation module `captcha/image.py` is not part of the sources at
hand.  Following the specification, the engine is therefore modelled here as a
shallow embedding: a pure, executable pipeline
LayoutPlanner → Compositor → DistortionEngine → NoiseInjector, orchestrated by
`ImageCaptcha.generateWithBoundingBoxes` / `ImageCaptcha.generate` /
`ImageCaptcha.write`.  The process-wide pseudo-random source is made explicit
as a state value threaded through every stage; external collaborators (glyph
rasterisation, image codec, file system) are modelled as deterministic pure
functions, as the spec only demands deterministic geometry from them.
-/

namespace Captcha

/-- An RGBA color; the engine accepts RGB or RGBA tuples, modelled uniformly
with an alpha channel. -/
structure Color where
  r : Nat
  g : Nat
  b : Nat
  a : Nat
deriving Repr, DecidableEq

/-- Modelled from the spec: the process-wide pseudo-random source
(`random` module), "stateful, reseeded never implicitly".  It is embedded as
an explicit state value threaded through the pipeline; `next` is a linear
congruential step standing in for the library generator, which the spec
treats as an opaque deterministic sequence. -/
structure Rng where
  state : Nat
deriving Repr, DecidableEq

/-- One step of the pseudo-random source: returns a raw value and the
advanced state. -/
def Rng.next (r : Rng) : Nat × Rng :=
  let s := (r.state * 1103515245 + 12345) % 2 ^ 31
  (s, ⟨s⟩)

/-- Draw a pseudo-random natural number in `[lo, hi]` (inclusive). -/
def Rng.natIn (r : Rng) (lo hi : Nat) : Nat × Rng :=
  let v := r.next
  (lo + v.1 % (hi - lo + 1), v.2)

/-- Draw a pseudo-random integer in `[-bound, bound]`. -/
def Rng.intSym (r : Rng) (bound : Nat) : Int × Rng :=
  let v := r.natIn 0 (2 * bound)
  ((v.1 : Int) - (bound : Int), v.2)

/-- Modelled from the spec: the engine's construction parameters
(configuration surface, §6): canvas `width`, `height`, the eligible font
set, font-size range, rotation range, jitter/overlap, warp amplitude and
period, and noise iteration counts.  Every field has a default, so the
engine "can be constructed with no arguments". -/
structure ImageCaptcha where
  width : Nat := 160
  height : Nat := 60
  fontCount : Nat := 3
  fontSizes : List Nat := [42, 50, 56]
  rotationRange : Nat := 30
  jitterMax : Nat := 4
  overlapNum : Nat := 1
  overlapDen : Nat := 4
  warpAmplitude : Nat := 2
  warpPeriod : Nat := 12
  noiseCurveCount : Nat := 1
  noiseDotCount : Nat := 30
deriving Repr, DecidableEq

/-- The final canvas: a pixel buffer of fixed `width × height`.  Pixels are
modelled as a total function from coordinates to colors. -/
structure Image where
  width : Nat
  height : Nat
  pix : Nat → Nat → Color

/-- The pixel dimensions of an image, as reported by `image.size`. -/
def Image.size (img : Image) : Nat × Nat := (img.width, img.height)

/-- One returned bounding-box record: `{character, bbox = (x, y, w, h)}` in
final-canvas pixel coordinates, integer-valued. -/
structure CharBox where
  character : Char
  x : Int
  y : Int
  w : Int
  h : Int
deriving Repr, DecidableEq

/-- One entry of the `PlacementPlan`:
`{char, target_x, target_y, rotation_angle, font_choice}` (plus the chosen
font size, part of the font choice). -/
structure Placement where
  char : Char
  targetX : Int
  targetY : Int
  angle : Int
  fontChoice : Nat
  fontSize : Nat
deriving Repr, DecidableEq

/-- Modelled from the spec: the external glyph-rendering service's metric
query — the natural (unrotated) pixel width and height of a character at a
font and size.  The core only requires deterministic geometry given
deterministic inputs, so any fixed positive-size function is a faithful
stand-in; width is proportional to the size with a small per-character and
per-font variation, height is the font size. -/
def glyphNaturalSize (c : Char) (font : Nat) (size : Nat) : Nat × Nat :=
  (size * 3 / 5 + (c.toNat + font) % 5, size)

/-- `100·sin d°` for `d ∈ [0, 90]`, approximated piecewise-linearly in
integer arithmetic. -/
def sin100 (d : Nat) : Nat := min 100 (d * 10 / 9)

/-- `100·cos d°` for `d ∈ [0, 90]`, via the complementary angle. -/
def cos100 (d : Nat) : Nat := sin100 (90 - d)

/-- Axis-aligned extent of a `w × h` glyph raster after rotation by `d`
degrees (absolute value, clamped to 90): rotation changes width and height
and the Compositor must reflect that. -/
def rotatedSize (w h : Nat) (ang : Int) : Nat × Nat :=
  let d := min ang.natAbs 90
  ((w * cos100 d + h * sin100 d + 99) / 100,
   (w * sin100 d + h * cos100 d + 99) / 100)

/-- Modelled from the spec (§4.1 LayoutPlanner): walk the characters left to
right threading the random source and an x-cursor; per character choose a
font and size pseudo-randomly, query glyph metrics, draw horizontal jitter
and a vertical position keeping the unrotated glyph inside `[0, height)`,
draw a rotation angle uniformly from `[-rotation_range, rotation_range]`,
then advance the cursor by `glyph_width · (1 - overlap_fraction) + jitter`.
Characters that would land past the right edge are still placed (clipped
later by the Compositor). -/
def layoutChars (cfg : ImageCaptcha) : Rng → Int → List Char → List Placement × Rng
  | r, _, [] => ([], r)
  | r, cx, c :: cs =>
      let fd := r.natIn 0 (cfg.fontCount - 1)
      let sd := fd.2.natIn 0 (cfg.fontSizes.length - 1)
      let size := cfg.fontSizes.getD sd.1 0
      let g := glyphNaturalSize c fd.1 size
      let jd := sd.2.natIn 0 cfg.jitterMax
      let vd := jd.2.natIn 0 (cfg.height - min g.2 cfg.height)
      let ad := vd.2.intSym cfg.rotationRange
      let p : Placement :=
        { char := c, targetX := cx, targetY := (vd.1 : Int),
          angle := ad.1, fontChoice := fd.1, fontSize := size }
      let adv : Int :=
        (g.1 * (cfg.overlapDen - cfg.overlapNum) / max cfg.overlapDen 1
          + jd.1 : Nat)
      let rest := layoutChars cfg ad.2 (cx + adv) cs
      (p :: rest.1, rest.2)

/-- The `PlacementPlan` for a text: one entry per character, in input order,
starting the x-cursor at a small left margin. -/
def layoutPlan (cfg : ImageCaptcha) (r : Rng) (text : List Char) :
    List Placement × Rng :=
  layoutChars cfg r 2 text

/-- Clamp an integer into `[lo, hi]`. -/
def clampI (lo hi v : Int) : Int := max lo (min hi v)

/-- Modelled from the spec (§4.2 Compositor): the raw bounding box of one
pasted glyph — the painted extent of the rotated raster at its planned
position, clamped to the visible canvas region.  A fully clipped glyph
yields a zero-area box at the clamped edge rather than failing. -/
def rawBoxOf (cfg : ImageCaptcha) (p : Placement) : CharBox :=
  let g := glyphNaturalSize p.char p.fontChoice p.fontSize
  let rot := rotatedSize g.1 g.2 p.angle
  let x1 := clampI 0 (cfg.width : Int) p.targetX
  let x2 := clampI 0 (cfg.width : Int) (p.targetX + (rot.1 : Int))
  let y1 := clampI 0 (cfg.height : Int) p.targetY
  let y2 := clampI 0 (cfg.height : Int) (p.targetY + (rot.2 : Int))
  { character := p.char, x := x1, y := y1, w := x2 - x1, h := y2 - y1 }

/-- The raw (pre-distortion) bounding boxes of a plan, in plan order. -/
def rawBoxes (cfg : ImageCaptcha) (plan : List Placement) : List CharBox :=
  plan.map (rawBoxOf cfg)

/-- Modelled from the spec (§4.2 Compositor, pixel side): paste each glyph's
painted extent onto the canvas in the foreground color over the background
(alpha compositing collapses, in this metric model, to painting the glyph's
extent). -/
def renderPlan (cfg : ImageCaptcha) (plan : List Placement) (bg fg : Color) :
    Image :=
  { width := cfg.width, height := cfg.height,
    pix := fun a b =>
      if plan.any (fun p =>
          let bx := rawBoxOf cfg p
          bx.x ≤ (a : Int) ∧ (a : Int) < bx.x + bx.w ∧
          bx.y ≤ (b : Int) ∧ (b : Int) < bx.y + bx.h)
      then fg else bg }

/-- A `[-100, 100]`-valued triangle wave of period `p` (at least 2), the
integer stand-in for the sinusoid of the wave warp. -/
def triWave (p : Nat) (v : Int) : Int :=
  let per : Int := (max 2 p : Nat)
  let ph := v % per
  let half := per / 2
  if ph < half then -100 + 200 * ph / half
  else 100 - 200 * (ph - half) / (per - half)

/-- Horizontal displacement of the wave warp at row `y`. -/
def dispX (cfg : ImageCaptcha) (y : Int) : Int :=
  cfg.warpAmplitude * triWave cfg.warpPeriod y / 100

/-- Vertical displacement of the wave warp at column `x` (a quarter-period
phase shift of the same wave, at half amplitude). -/
def dispY (cfg : ImageCaptcha) (x : Int) : Int :=
  cfg.warpAmplitude * triWave cfg.warpPeriod (x + (max 2 cfg.warpPeriod : Nat) / 4) / 200

/-- The `DistortionField`: the forward coordinate mapping
`(x, y) → (x + dispX y, y + dispY x)` of the whole-canvas wave warp. -/
def warpPoint (cfg : ImageCaptcha) (q : Int × Int) : Int × Int :=
  (q.1 + dispX cfg q.2, q.2 + dispY cfg q.1)

/-- Modelled from the spec (§4.3 DistortionEngine, pixel side): resample the
canvas through the warp (nearest-neighbour, from the displaced source
coordinate, clamped to the buffer). -/
def distortImage (cfg : ImageCaptcha) (img : Image) : Image :=
  { width := img.width, height := img.height,
    pix := fun a b =>
      let sx := clampI 0 ((img.width : Int) - 1) ((a : Int) - dispX cfg (b : Int))
      let sy := clampI 0 ((img.height : Int) - 1) ((b : Int) - dispY cfg (a : Int))
      img.pix sx.toNat sy.toNat }

/-- Modelled from the spec (§4.3): update one raw bounding box after the
warp by mapping its four corners through the forward warp mapping, taking
the axis-aligned bounding rectangle of the mapped points, and clamping it to
the canvas.  Corner mapping (never pixel re-scanning) is the authoritative
method; a box collapsed to zero width or height is kept, not dropped. -/
def updateBox (cfg : ImageCaptcha) (b : CharBox) : CharBox :=
  let c1 := warpPoint cfg (b.x, b.y)
  let c2 := warpPoint cfg (b.x + b.w, b.y)
  let c3 := warpPoint cfg (b.x, b.y + b.h)
  let c4 := warpPoint cfg (b.x + b.w, b.y + b.h)
  let xlo := min (min c1.1 c2.1) (min c3.1 c4.1)
  let xhi := max (max c1.1 c2.1) (max c3.1 c4.1)
  let ylo := min (min c1.2 c2.2) (min c3.2 c4.2)
  let yhi := max (max c1.2 c2.2) (max c3.2 c4.2)
  let nx1 := clampI 0 (cfg.width : Int) xlo
  let nx2 := clampI 0 (cfg.width : Int) xhi
  let ny1 := clampI 0 (cfg.height : Int) ylo
  let ny2 := clampI 0 (cfg.height : Int) yhi
  { character := b.character, x := nx1, y := ny1, w := nx2 - nx1, h := ny2 - ny1 }

/-- Overwrite a single pixel of the canvas. -/
def setPix (img : Image) (x y : Nat) (c : Color) : Image :=
  { img with pix := fun a b => if a = x ∧ b = y then c else img.pix a b }

/-- The color used for injected noise. -/
def noiseColor : Color := ⟨80, 80, 80, 255⟩

/-- Modelled from the spec (§4.4 NoiseInjector, dots): place `n` random dot
pixels on the canvas, threading the random source. -/
def addDots (cfg : ImageCaptcha) : Nat → Rng → Image → Image × Rng
  | 0, r, img => (img, r)
  | n + 1, r, img =>
      let xd := r.natIn 0 (cfg.width - 1)
      let yd := xd.2.natIn 0 (cfg.height - 1)
      addDots cfg n yd.2 (setPix img xd.1 yd.1 noiseColor)

/-- Draw a straight segment between two points as `steps + 1` interpolated
pixels (the building block of a noise curve through control points). -/
def drawSegment (img : Image) (p q : Nat × Nat) (steps : Nat) : Image :=
  (List.range (steps + 1)).foldl
    (fun im t =>
      setPix im ((p.1 * (steps - t) + q.1 * t) / (max steps 1))
        ((p.2 * (steps - t) + q.2 * t) / (max steps 1)) noiseColor)
    img

/-- Modelled from the spec (§4.4 NoiseInjector, curves): draw `n` random
arcs, each through three random control points, threading the random
source. -/
def addCurves (cfg : ImageCaptcha) : Nat → Rng → Image → Image × Rng
  | 0, r, img => (img, r)
  | n + 1, r, img =>
      let x1 := r.natIn 0 (cfg.width - 1)
      let y1 := x1.2.natIn 0 (cfg.height - 1)
      let x2 := y1.2.natIn 0 (cfg.width - 1)
      let y2 := x2.2.natIn 0 (cfg.height - 1)
      let x3 := y2.2.natIn 0 (cfg.width - 1)
      let y3 := x3.2.natIn 0 (cfg.height - 1)
      let im1 := drawSegment img (x1.1, y1.1) (x2.1, y2.1) 16
      let im2 := drawSegment im1 (x2.1, y2.1) (x3.1, y3.1) 16
      addCurves cfg n y3.2 im2

/-- Modelled from the spec (§4.4): the noise pass — curves then dot
clusters, strictly after distortion and bounding-box finalisation; it
touches the canvas only, never the stored boxes. -/
def injectNoise (cfg : ImageCaptcha) (r : Rng) (img : Image) : Image × Rng :=
  let cv := addCurves cfg cfg.noiseCurveCount r img
  addDots cfg cfg.noiseDotCount cv.2 cv.1

/-- Modelled from the spec (§4.5): resolve the per-call background and
foreground colors — explicit RGB(A) overrides are taken as given, omitted
values fall back to a palette chosen pseudo-randomly per call. -/
def resolveColors (r : Rng) (obg ofg : Option Color) : Color × Color × Rng :=
  match obg, ofg with
  | some bg, some fg => (bg, fg, r)
  | some bg, none =>
      let d := r.natIn 10 200
      (bg, ⟨d.1, d.1, d.1, 255⟩, d.2)
  | none, some fg =>
      let d := r.natIn 238 255
      (⟨d.1, d.1, d.1, 255⟩, fg, d.2)
  | none, none =>
      let d1 := r.natIn 238 255
      let d2 := d1.2.natIn 10 200
      (⟨d1.1, d1.1, d1.1, 255⟩, ⟨d2.1, d2.1, d2.1, 255⟩, d2.2)

/-- Modelled from the spec (§4.5 CaptchaEngine):
`generate_with_bounding_boxes(text, bg_color?, fg_color?)` — resolve colors,
plan the layout, composite the glyphs recording raw boxes, warp the canvas,
update every box through the warp's corner mapping, then inject noise into
the (already finalised) canvas; return the image and the ordered
per-character boxes, plus the advanced random-source state. -/
def ImageCaptcha.generateWithBoundingBoxes (cfg : ImageCaptcha) (r : Rng)
    (text : String) (obg ofg : Option Color) :
    (Image × List CharBox) × Rng :=
  let rc := resolveColors r obg ofg
  let pl := layoutPlan cfg rc.2.2 text.data
  let raw := rawBoxes cfg pl.1
  let img0 := renderPlan cfg pl.1 rc.1 rc.2.1
  let img1 := distortImage cfg img0
  let nz := injectNoise cfg pl.2 img1
  ((nz.1, raw.map (updateBox cfg)), nz.2)

/-- Modelled from the spec: the external image codec — encode the final
pixel buffer into a byte stream: a dimension header followed by the RGBA
bytes of each pixel in row-major order. -/
def encodeImage (img : Image) : List Nat :=
  img.width % 256 :: img.width / 256 :: img.height % 256 :: img.height / 256 ::
    ((List.range img.height).flatMap (fun y =>
      (List.range img.width).flatMap (fun x =>
        let c := img.pix x y
        [c.r, c.g, c.b, c.a])))

/-- Modelled from the spec (§4.5): `generate(text, bg_color?, fg_color?)` —
run the full pipeline, return the encoded raster, discard the bounding
boxes. -/
def ImageCaptcha.generate (cfg : ImageCaptcha) (r : Rng) (text : String)
    (obg ofg : Option Color) : List Nat × Rng :=
  let g := cfg.generateWithBoundingBoxes r text obg ofg
  (encodeImage g.1.1, g.2)

/-- A file system, for the `write` operation: an association of paths to
byte contents, most recent first. -/
structure FileSystem where
  entries : List (String × List Nat)
deriving Repr, DecidableEq

/-- Modelled from the spec: `write(text, filepath)` (exercised by
`test_save_image`) — run the generation pipeline, encode the image, and
create a file with those bytes at the given path. -/
def ImageCaptcha.write (cfg : ImageCaptcha) (r : Rng) (text : String)
    (filepath : String) (fs : FileSystem) : FileSystem × Rng :=
  let g := cfg.generate r text none none
  (⟨(filepath, g.1) :: fs.entries⟩, g.2)

/-- Look a file up by path. -/
def FileSystem.lookup (fs : FileSystem) (path : String) : Option (List Nat) :=
  fs.entries.lookup path

/-- A sequence of `generate_with_bounding_boxes` calls on one engine
instance, threading the process-wide random source from call to call (the
only persistent state between calls). -/
def runCalls (cfg : ImageCaptcha) : Rng → List String → List (Image × List CharBox)
  | _, [] => []
  | r, t :: ts =>
      let g := cfg.generateWithBoundingBoxes r t none none
      g.1 :: runCalls cfg g.2 ts

/-! ## Helper lemmas -/

/-- The layout planner emits exactly the input characters, in input order. -/
theorem layoutChars_map_char (cfg : ImageCaptcha) (cs : List Char) :
    ∀ (r : Rng) (cx : Int), ((layoutChars cfg r cx cs).1.map Placement.char) = cs := by
  induction cs with
  | nil => intro r cx; rfl
  | cons c cs ih =>
      intro r cx
      simp only [layoutChars, List.map_cons]
      rw [ih]

/-- Every warped, clamped box is inside the canvas with non-negative
dimensions. -/
theorem updateBox_within (cfg : ImageCaptcha) (b : CharBox) :
    0 ≤ (updateBox cfg b).x ∧ 0 ≤ (updateBox cfg b).y ∧
    0 ≤ (updateBox cfg b).w ∧ 0 ≤ (updateBox cfg b).h ∧
    (updateBox cfg b).x + (updateBox cfg b).w ≤ (cfg.width : Int) ∧
    (updateBox cfg b).y + (updateBox cfg b).h ≤ (cfg.height : Int) := by
  simp only [updateBox, warpPoint, clampI]
  omega

/-- The boxes returned by the pipeline are the warped raw boxes of the
plan. -/
theorem gwbb_boxes_eq (cfg : ImageCaptcha) (r : Rng) (t : String)
    (obg ofg : Option Color) :
    (cfg.generateWithBoundingBoxes r t obg ofg).1.2 =
      (layoutPlan cfg (resolveColors r obg ofg).2.2 t.data).1.map
        (fun p => updateBox cfg (rawBoxOf cfg p)) := by
  simp only [ImageCaptcha.generateWithBoundingBoxes, rawBoxes, List.map_map]
  rfl

/-- `setPix` leaves the canvas dimensions unchanged. -/
theorem setPix_width (img : Image) (x y : Nat) (c : Color) :
    (setPix img x y c).width = img.width := rfl

/-- `setPix` leaves the canvas dimensions unchanged. -/
theorem setPix_height (img : Image) (x y : Nat) (c : Color) :
    (setPix img x y c).height = img.height := rfl

/-- A fold of width-preserving drawing steps preserves the width. -/
theorem foldl_draw_width (g : Image → Nat → Image)
    (hg : ∀ im t, (g im t).width = im.width) :
    ∀ (l : List Nat) (img : Image), (l.foldl g img).width = img.width
  | [], _ => rfl
  | t :: ts, img => by
      rw [List.foldl_cons, foldl_draw_width g hg ts (g img t), hg]

/-- A fold of height-preserving drawing steps preserves the height. -/
theorem foldl_draw_height (g : Image → Nat → Image)
    (hg : ∀ im t, (g im t).height = im.height) :
    ∀ (l : List Nat) (img : Image), (l.foldl g img).height = img.height
  | [], _ => rfl
  | t :: ts, img => by
      rw [List.foldl_cons, foldl_draw_height g hg ts (g img t), hg]

/-- Drawing a noise segment preserves the canvas width. -/
theorem drawSegment_width (img : Image) (p q : Nat × Nat) (steps : Nat) :
    (drawSegment img p q steps).width = img.width := by
  simp only [drawSegment]
  exact foldl_draw_width
    (fun im t =>
      setPix im ((p.1 * (steps - t) + q.1 * t) / (max steps 1))
        ((p.2 * (steps - t) + q.2 * t) / (max steps 1)) noiseColor)
    (fun _ _ => rfl) _ img

/-- Drawing a noise segment preserves the canvas height. -/
theorem drawSegment_height (img : Image) (p q : Nat × Nat) (steps : Nat) :
    (drawSegment img p q steps).height = img.height := by
  simp only [drawSegment]
  exact foldl_draw_height
    (fun im t =>
      setPix im ((p.1 * (steps - t) + q.1 * t) / (max steps 1))
        ((p.2 * (steps - t) + q.2 * t) / (max steps 1)) noiseColor)
    (fun _ _ => rfl) _ img

/-- Noise dots preserve the canvas width. -/
theorem addDots_width (cfg : ImageCaptcha) :
    ∀ (n : Nat) (r : Rng) (img : Image), ((addDots cfg n r img).1).width = img.width
  | 0, _, _ => rfl
  | n + 1, r, img => by
      simp only [addDots]
      rw [addDots_width cfg n]
      rfl

/-- Noise dots preserve the canvas height. -/
theorem addDots_height (cfg : ImageCaptcha) :
    ∀ (n : Nat) (r : Rng) (img : Image), ((addDots cfg n r img).1).height = img.height
  | 0, _, _ => rfl
  | n + 1, r, img => by
      simp only [addDots]
      rw [addDots_height cfg n]
      rfl

/-- Noise curves preserve the canvas width. -/
theorem addCurves_width (cfg : ImageCaptcha) :
    ∀ (n : Nat) (r : Rng) (img : Image), ((addCurves cfg n r img).1).width = img.width
  | 0, _, _ => rfl
  | n + 1, r, img => by
      simp only [addCurves]
      rw [addCurves_width cfg n, drawSegment_width, drawSegment_width]

/-- Noise curves preserve the canvas height. -/
theorem addCurves_height (cfg : ImageCaptcha) :
    ∀ (n : Nat) (r : Rng) (img : Image), ((addCurves cfg n r img).1).height = img.height
  | 0, _, _ => rfl
  | n + 1, r, img => by
      simp only [addCurves]
      rw [addCurves_height cfg n, drawSegment_height, drawSegment_height]

/-- The noise pass preserves the canvas width. -/
theorem injectNoise_width (cfg : ImageCaptcha) (r : Rng) (img : Image) :
    ((injectNoise cfg r img).1).width = img.width := by
  simp only [injectNoise]
  rw [addDots_width, addCurves_width]

/-- The noise pass preserves the canvas height. -/
theorem injectNoise_height (cfg : ImageCaptcha) (r : Rng) (img : Image) :
    ((injectNoise cfg r img).1).height = img.height := by
  simp only [injectNoise]
  rw [addDots_height, addCurves_height]

/-- The image returned by the pipeline always has the configured pixel
dimensions. -/
theorem gwbb_image_size (cfg : ImageCaptcha) (r : Rng) (t : String)
    (obg ofg : Option Color) :
    ((cfg.generateWithBoundingBoxes r t obg ofg).1.1).size = (cfg.width, cfg.height) := by
  simp only [ImageCaptcha.generateWithBoundingBoxes, Image.size]
  rw [injectNoise_width, injectNoise_height]
  rfl

/-- The returned box sequence always has one entry per input character. -/
theorem gwbb_length_eq (cfg : ImageCaptcha) (r : Rng) (t : String)
    (obg ofg : Option Color) :
    ((cfg.generateWithBoundingBoxes r t obg ofg).1.2).length = t.length := by
  have h := congrArg List.length
    (layoutChars_map_char cfg t.data (resolveColors r obg ofg).2.2 2)
  rw [List.length_map] at h
  rw [gwbb_boxes_eq, layoutPlan, List.length_map]
  exact h

/-! ## Claim theorems -/

/-- C1: for every non-empty input string `text`, the sequence of bounding
boxes returned by `generate_with_bounding_boxes(text)` has exactly one
entry per input character: `len(bounding_boxes) == len(text)`. -/
theorem gwbb_length (cfg : ImageCaptcha) (r : Rng) (t : String)
    (obg ofg : Option Color) (_ht : t ≠ "") :
    ((cfg.generateWithBoundingBoxes r t obg ofg).1.2).length = t.length :=
  gwbb_length_eq cfg r t obg ofg

/-- C1 witness at a concrete non-empty input. -/
theorem gwbb_length_witness :
    "AB" ≠ "" ∧
    ((ImageCaptcha.generateWithBoundingBoxes {} ⟨1⟩ "AB" none none).1.2).length
      = "AB".length :=
  ⟨by decide, gwbb_length {} ⟨1⟩ "AB" none none (by decide)⟩

/-- C2: for every input text, the `character` fields of the returned
sequence are exactly the characters of the input, index for index (output
order equals input character order). -/
theorem gwbb_character_order (cfg : ImageCaptcha) (r : Rng) (t : String)
    (obg ofg : Option Color) :
    ((cfg.generateWithBoundingBoxes r t obg ofg).1.2).map CharBox.character
      = t.data := by
  rw [gwbb_boxes_eq, layoutPlan, List.map_map]
  have h : (CharBox.character ∘ fun p => updateBox cfg (rawBoxOf cfg p))
      = Placement.char := funext (fun p => rfl)
  rw [h, layoutChars_map_char]

/-- C3: every returned bounding box `(x, y, w, h)`, for any input text and
any random state, satisfies `0 ≤ x`, `0 ≤ y`, `x + w ≤ width` and
`y + h ≤ height`: no box ever exceeds the canvas boundary. -/
theorem gwbb_boxes_within_canvas (cfg : ImageCaptcha) (r : Rng) (t : String)
    (obg ofg : Option Color) :
    ∀ b ∈ (cfg.generateWithBoundingBoxes r t obg ofg).1.2,
      0 ≤ b.x ∧ 0 ≤ b.y ∧
      b.x + b.w ≤ (cfg.width : Int) ∧ b.y + b.h ≤ (cfg.height : Int) := by
  intro b hb
  rw [gwbb_boxes_eq] at hb
  obtain ⟨p, hp, rfl⟩ := List.mem_map.mp hb
  obtain ⟨h1, h2, _, _, h5, h6⟩ := updateBox_within cfg (rawBoxOf cfg p)
  exact ⟨h1, h2, h5, h6⟩

/-- C3 witness at a concrete box of a concrete run. -/
theorem gwbb_boxes_within_canvas_witness :
    (⟨'A', 3, 4, 31, 51⟩ : CharBox)
        ∈ (ImageCaptcha.generateWithBoundingBoxes {} ⟨1⟩ "AB" none none).1.2 ∧
    ((0 : Int) ≤ 3 ∧ (0 : Int) ≤ 4 ∧
      (3 : Int) + 31 ≤ (160 : Int) ∧ (4 : Int) + 51 ≤ (60 : Int)) :=
  ⟨by decide,
   gwbb_boxes_within_canvas {} ⟨1⟩ "AB" none none ⟨'A', 3, 4, 31, 51⟩ (by decide)⟩

/-- C4: on the empty input string the engine returns an empty bounding-box
sequence (never null) and an image whose pixel dimensions still equal the
configured `(width, height)`. -/
theorem gwbb_empty_string (cfg : ImageCaptcha) (r : Rng) (obg ofg : Option Color) :
    (cfg.generateWithBoundingBoxes r "" obg ofg).1.2 = [] ∧
    ((cfg.generateWithBoundingBoxes r "" obg ofg).1.1).size = (cfg.width, cfg.height) :=
  ⟨rfl, gwbb_image_size cfg r "" obg ofg⟩

/-- C5: two calls with the same input text made from the same
pseudo-random-source state produce identical bounding-box sequences
(determinism given a fixed seed). -/
theorem gwbb_deterministic (cfg : ImageCaptcha) (t : String)
    (obg ofg : Option Color) (r1 r2 : Rng) (h : r1 = r2) :
    (cfg.generateWithBoundingBoxes r1 t obg ofg).1.2 =
    (cfg.generateWithBoundingBoxes r2 t obg ofg).1.2 := by
  rw [h]

/-- C5 witness: two calls from the concrete state `⟨7⟩` agree. -/
theorem gwbb_deterministic_witness :
    (ImageCaptcha.generateWithBoundingBoxes {} ⟨7⟩ "ABCD" none none).1.2 =
    (ImageCaptcha.generateWithBoundingBoxes {} ⟨7⟩ "ABCD" none none).1.2 :=
  gwbb_deterministic {} "ABCD" none none ⟨7⟩ ⟨7⟩ rfl

/-- C6: a bounding box collapsed to zero width or zero height is neither a
failure nor dropped: the sequence still has one entry per character, and
the degenerate entry is returned in place as a valid zero-area box with
clamped (possibly zero) dimensions inside the canvas. -/
theorem gwbb_degenerate_box_kept (cfg : ImageCaptcha) (r : Rng) (t : String)
    (obg ofg : Option Color) :
    ((cfg.generateWithBoundingBoxes r t obg ofg).1.2).length = t.length ∧
    ∀ b ∈ (cfg.generateWithBoundingBoxes r t obg ofg).1.2,
      (b.w = 0 ∨ b.h = 0) →
      0 ≤ b.x ∧ 0 ≤ b.y ∧ 0 ≤ b.w ∧ 0 ≤ b.h ∧
      b.x + b.w ≤ (cfg.width : Int) ∧ b.y + b.h ≤ (cfg.height : Int) := by
  refine ⟨gwbb_length_eq cfg r t obg ofg, ?_⟩
  intro b hb _
  rw [gwbb_boxes_eq] at hb
  obtain ⟨p, hp, rfl⟩ := List.mem_map.mp hb
  exact updateBox_within cfg (rawBoxOf cfg p)

/-- C6 witness: a concrete default-configuration run in which the box of
`H` is clipped to zero width yet returned in place, clamped and valid. -/
theorem gwbb_degenerate_box_kept_witness :
    ((⟨'H', 160, 5, 0, 47⟩ : CharBox)
        ∈ (ImageCaptcha.generateWithBoundingBoxes {} ⟨1⟩ "ABCDEFGHIJKL" none none).1.2 ∧
      ((0 : Int) = 0 ∨ (47 : Int) = 0)) ∧
    ((0 : Int) ≤ 160 ∧ (0 : Int) ≤ 5 ∧ (0 : Int) ≤ 0 ∧ (0 : Int) ≤ 47 ∧
      (160 : Int) + 0 ≤ (160 : Int) ∧ (5 : Int) + 47 ≤ (60 : Int)) :=
  ⟨⟨by decide, Or.inl rfl⟩,
   (gwbb_degenerate_box_kept {} ⟨1⟩ "ABCDEFGHIJKL" none none).2
     ⟨'H', 160, 5, 0, 47⟩ (by decide) (Or.inl rfl)⟩

/-- C7: `generate(text, bg_color?, fg_color?)` runs the same full pipeline
and returns the encoded byte stream of its final raster, with the bounding
boxes discarded from the result. -/
theorem generate_encodes_pipeline (cfg : ImageCaptcha) (r : Rng) (t : String)
    (obg ofg : Option Color) :
    (cfg.generate r t obg ofg).1 =
      encodeImage (cfg.generateWithBoundingBoxes r t obg ofg).1.1 ∧
    (cfg.generate r t obg ofg).2 =
      (cfg.generateWithBoundingBoxes r t obg ofg).2 :=
  ⟨rfl, rfl⟩

/-- C8 counterexample: under the default configuration there is a concrete
run (state `⟨1⟩`, text `"ABCDEFGHIJKL"`) in which a character clipped at
the right canvas edge gets a zero-width box, so not every returned box has
strictly positive width and height. -/
theorem gwbb_positive_dims_cex :
    ¬ ∀ b ∈ (ImageCaptcha.generateWithBoundingBoxes {} ⟨1⟩ "ABCDEFGHIJKL" none none).1.2,
        0 < b.w ∧ 0 < b.h := by
  decide

/-- C8 (amended): for every non-empty input under the default
configuration, every returned box has non-negative (possibly zero) integer
width and height. -/
theorem gwbb_default_dims_nonneg (r : Rng) (t : String)
    (obg ofg : Option Color) (_ht : t ≠ "") :
    ∀ b ∈ (ImageCaptcha.generateWithBoundingBoxes {} r t obg ofg).1.2,
      0 ≤ b.w ∧ 0 ≤ b.h := by
  intro b hb
  rw [gwbb_boxes_eq] at hb
  obtain ⟨p, hp, rfl⟩ := List.mem_map.mp hb
  obtain ⟨_, _, h3, h4, _, _⟩ := updateBox_within {} (rawBoxOf {} p)
  exact ⟨h3, h4⟩

/-- C8 (amended) witness at the degenerate concrete run. -/
theorem gwbb_default_dims_nonneg_witness :
    "ABCDEFGHIJKL" ≠ "" ∧
    (⟨'H', 160, 5, 0, 47⟩ : CharBox)
        ∈ (ImageCaptcha.generateWithBoundingBoxes {} ⟨1⟩ "ABCDEFGHIJKL" none none).1.2 ∧
    ((0 : Int) ≤ 0 ∧ (0 : Int) ≤ 47) :=
  ⟨by decide, by decide,
   gwbb_default_dims_nonneg ⟨1⟩ "ABCDEFGHIJKL" none none (by decide)
     ⟨'H', 160, 5, 0, 47⟩ (by decide)⟩

/-- C9: `write(text, filepath)` runs the generation pipeline, encodes the
image, and creates a file with those bytes at the given path. -/
theorem write_creates_file (cfg : ImageCaptcha) (r : Rng) (t path : String)
    (fs : FileSystem) :
    ((cfg.write r t path fs).1).lookup path = some (cfg.generate r t none none).1 := by
  simp [ImageCaptcha.write, FileSystem.lookup, List.lookup]

/-- C10: the engine constructed with no arguments has working defaults, and
every call in any sequence of repeated `generate_with_bounding_boxes` calls
on that instance yields an image of exactly the configured
`(width, height)`. -/
theorem default_engine_image_size (r : Rng) (texts : List String) :
    ∀ out ∈ runCalls {} r texts,
      out.1.size = (({} : ImageCaptcha).width, ({} : ImageCaptcha).height) := by
  induction texts generalizing r with
  | nil => intro out h; exact absurd h (List.not_mem_nil _)
  | cons t ts ih =>
      intro out h
      simp only [runCalls, List.mem_cons] at h
      rcases h with h | h
      · subst h
        exact gwbb_image_size {} r t none none
      · exact ih _ _ h

/-- C10 witness: the first call of a concrete sequence has the default
160 × 60 size. -/
theorem default_engine_image_size_witness :
    ((ImageCaptcha.generateWithBoundingBoxes {} ⟨0⟩ "ABCD" none none).1.1).size
      = (160, 60) :=
  default_engine_image_size ⟨0⟩ ["ABCD"] _ (List.Mem.head _)

end Captcha
